import Mathlib

/-!
Formal model of the query orchestration and pending-request protocol implemented in
packages/backend/src/routes/ask.ts: the routes POST /ask, GET /ask/:requestId,
GET /ask/:requestId/status and POST /ask/:requestId/dom-results.

External collaborators (query classifier, Gmail and Calendar fetchers, OAuth token
refresh, answer synthesizer) are single opaque calls; they enter the model as oracle
inputs.  The in-memory pendingSearches Map and the plain results object of a
PendingSearch are both modelled as association lists over String keys.
-/

namespace Anor

/-- The status values stored in or reported for a PendingSearch; the source uses the
strings pending, partial, processing, complete, failed. -/
inductive Status where
  | Pending
  | Partial
  | Processing
  | Complete
  | Failed
deriving DecidableEq

/-- SearchHit of types/search.ts.  The metadata map is empty on every modelled path and
is omitted; the float relevance 0.9 is carried as the rational 9/10. -/
structure SearchHit where
  id : String
  source : String
  content : String
  relevance : Rat
deriving DecidableEq

/-- DOMInstruction of types/search.ts: one instruction handed to the extension agent. -/
structure DOMInstruction where
  request_id : String
  source : String
  keywords : List String
deriving DecidableEq

/-- The answer synthesizer (lib/synthesizer.ts) is an external collaborator that the
spec treats as an opaque call.  Its output is modelled as a record of the inputs it was
invoked on: the query and the merged evidence.  The conversation history argument
influences no claim and is omitted. -/
structure Answer where
  query : String
  evidence : List SearchHit
deriving DecidableEq

/-- Lookup in an association list, mirroring JS object property read / Map.get. -/
def alookup {α : Type} : List (String × α) → String → Option α
  | [], _ => none
  | (k1, v) :: rest, k => if k1 = k then some v else alookup rest k

/-- Insert or overwrite in an association list, mirroring JS object property
assignment / Map.set (an existing key keeps its position, a new key is appended). -/
def ainsert {α : Type} : List (String × α) → String → α → List (String × α)
  | [], k, v => [(k, v)]
  | (k1, v1) :: rest, k, v =>
    if k1 = k then (k, v) :: rest else (k1, v1) :: ainsert rest k v

/-- The key list of an association list (Object.keys / Map keys, in insertion order). -/
def akeys {α : Type} (m : List (String × α)) : List String := m.map Prod.fst

/-- The per-source results map of a PendingSearch. -/
abbrev ResultsMap := List (String × List SearchHit)

/-- PendingSearch of types/search.ts as populated by ask.ts.  Timestamps are epoch
milliseconds.  The metadata field (queryAnalysis, gmailPlan) only feeds conversation
history text and is omitted. -/
structure PendingSearch where
  request_id : String
  user_id : String
  query : String
  requires_extension : Bool
  sources_needed : List String
  instructions : List DOMInstruction
  results : ResultsMap
  status : Status
  created_at : Nat
  conversation_id : Option String
  answer : Option Answer
deriving DecidableEq

/-- The module level pendingSearches map (ask.ts line 20). -/
abbrev Store := List (String × PendingSearch)

/-- Helper for normalizeSnippets: builds the hit for each snippet with its index
(ask.ts lines 503 to 509). -/
def buildHits (source : String) : Nat → List String → List SearchHit
  | _, [] => []
  | i, snippet :: rest =>
    { id := source ++ "-" ++ toString i
      source := source
      content := snippet
      relevance := (9 : Rat) / 10 } :: buildHits source (i + 1) rest

/-- The snippets.map normalization of the dom-results handler (ask.ts lines 503 to
509): hit ids are source-index, the source string is stored as given, relevance 0.9. -/
def normalizeSnippets (source : String) (snippets : List String) : List SearchHit :=
  buildHits source 0 snippets

/-- The allSourcesComplete check of the dom-results handler (ask.ts lines 514 to 516):
every needed source must have a results entry (a missing property is falsy; a present
array is truthy and its length is always at least 0). -/
def allSourcesComplete (p : PendingSearch) : Bool :=
  p.sources_needed.all fun src =>
    match alookup p.results src with
    | none => false
    | some hits => decide (0 ≤ hits.length)

/-- Response bodies of the dom-results route. -/
inductive DomResponse where
  | notFound
  | forbidden
  | ok (status : Status) (request_id : String)
deriving DecidableEq

/-- The observable outcome of one dom-results call: the HTTP response, the store as it
stands when the handler returns, and whether a detached background synthesis task was
spawned (the task itself runs after the handler has returned; see backgroundSynthesis). -/
structure DomOutcome where
  response : DomResponse
  store : Store
  spawned : Bool
deriving DecidableEq

/-- POST /ask/:requestId/dom-results (ask.ts lines 485 to 588), up to the point where
the handler returns.  Note that on the completing branch the stored status is left
unchanged: the handler only answers with status processing and spawns the background
task; it assigns no status to the entry. -/
def submitDomResults (store : Store) (callerId requestId source : String)
    (snippets : List String) : DomOutcome :=
  match alookup store requestId with
  | none => ⟨.notFound, store, false⟩
  | some p =>
    if p.user_id ≠ callerId then ⟨.forbidden, store, false⟩
    else
      if allSourcesComplete
          { p with results := ainsert p.results source (normalizeSnippets source snippets) } then
        ⟨.ok .Processing requestId,
          ainsert store requestId
            { p with results := ainsert p.results source (normalizeSnippets source snippets) },
          true⟩
      else
        ⟨.ok .Partial requestId,
          ainsert store requestId
            { p with results := ainsert p.results source (normalizeSnippets source snippets),
                     status := .Partial },
          false⟩

/-- The entry as rewritten by a dom-results submission before the completeness check
(ask.ts lines 503 to 511). -/
def submittedEntry (p : PendingSearch) (source : String)
    (snippets : List String) : PendingSearch :=
  { p with results := ainsert p.results source (normalizeSnippets source snippets) }

/-- Response bodies of the two GET routes. -/
inductive GetResponse where
  | notFound
  | forbidden
  | ok (status : Status) (request_id : String) (sources_needed : List String)
      (answer : Option Answer)
deriving DecidableEq

/-- GET /ask/:requestId (ask.ts lines 423 to 451).  The handler never mutates the
store; the returned store is the input store. -/
def getAsk (store : Store) (callerId requestId : String) : GetResponse × Store :=
  match alookup store requestId with
  | none => (.notFound, store)
  | some p =>
    if p.user_id ≠ callerId then (.forbidden, store)
    else
      (.ok p.status requestId p.sources_needed
        (if p.status = .Complete then p.answer else none), store)

/-- GET /ask/:requestId/status, the legacy alias (ask.ts lines 454 to 482); its body is
identical to getAsk. -/
def getAskStatus (store : Store) (callerId requestId : String) : GetResponse × Store :=
  getAsk store callerId requestId

/-- Modelled from the spec (section 4.3): mergeResults of lib/normalizer.ts is not under
src/; the spec states that merge concatenates the hit sets and orders by relevance
descending with ties broken by stable input order.  Stable insertion: a hit is placed
before the first already placed hit of lower or equal relevance. -/
def insertHitDesc (x : SearchHit) : List SearchHit → List SearchHit
  | [] => [x]
  | y :: ys => if y.relevance ≤ x.relevance then x :: y :: ys else y :: insertHitDesc x ys

/-- Modelled from the spec (section 4.3): stable sort by relevance descending. -/
def sortHitsDesc : List SearchHit → List SearchHit
  | [] => []
  | x :: xs => insertHitDesc x (sortHitsDesc xs)

/-- Modelled from the spec (section 4.3): mergeResults takes the hit sets (the source
spreads them as rest arguments), concatenates and orders by relevance descending. -/
def mergeResults (hitSets : List (List SearchHit)) : List SearchHit :=
  sortHitsDesc hitSets.flatten

/-- synthesizeAnswer is an external collaborator; modelled as recording its inputs. -/
def synthesizeAnswer (query : String) (merged : List SearchHit) : Answer :=
  { query := query, evidence := merged }

/-- The detached background synthesis task of the dom-results handler (ask.ts lines 520
to 575), modelled as a separate step applied after the submitting call has returned.
synthOk says whether the synthesis call succeeds (any failure is caught and turns into
status failed, ask.ts lines 571 to 574).  On success the answer is stored, status
becomes complete, and a deletion of the entry is scheduled 30000 ms later (setTimeout,
lines 568 to 570); the second component is the scheduled deletion time, none when
nothing is scheduled (in particular the failure branch schedules no cleanup).
Conversation history reads and writes touch only the external conversations table and
are omitted. -/
def backgroundSynthesis (store : Store) (requestId : String) (synthOk : Bool)
    (now : Nat) : Store × Option Nat :=
  match alookup store requestId with
  | none => (store, none)
  | some p =>
    if synthOk then
      (ainsert store requestId
        { p with
            answer := some (synthesizeAnswer p.query (mergeResults (p.results.map Prod.snd)))
            status := .Complete },
        some (now + 30000))
    else
      (ainsert store requestId { p with status := .Failed }, none)

/-- The lazy cleanup of old pending searches run during registration (ask.ts lines 356
to 362): every entry created more than five minutes before now is deleted, whatever its
status. -/
def sweepStore (store : Store) (now : Nat) : Store :=
  store.filter fun e => !(decide (e.2.created_at < now - 5 * 60 * 1000))

/-- The proactive token expiry check of POST /ask (ask.ts lines 168 to 173): refresh
when the stored expiry is absent or strictly earlier than the current time. -/
def shouldRefreshToken (tokenExpiresAt : Option Nat) (now : Nat) : Bool :=
  match tokenExpiresAt with
  | none => true
  | some t => decide (t < now)

/-- The isUnauthorized classification used by both synchronous fetch blocks (ask.ts
lines 225 to 228 and 275 to 278): a 401 in any of the four checked error shapes. -/
structure ErrShape where
  code : Option Nat
  status : Option Nat
  responseStatus : Option Nat
  responseDataErrorCode : Option Nat
deriving DecidableEq

def isUnauthorized (e : ErrShape) : Bool :=
  decide (e.code = some 401) || decide (e.status = some 401) ||
    decide (e.responseStatus = some 401) || decide (e.responseDataErrorCode = some 401)

/-- Outcome of one call to an external fetcher: normalized hits, or a thrown error. -/
inductive FetchTry where
  | ok (hits : List SearchHit)
  | err (e : ErrShape)
deriving DecidableEq

/-- Oracle for one synchronous source fetch: the outcome of the first call, whether
refreshAndUpdateToken would succeed, and the outcome of the retried call (consulted
only when a retry happens). -/
structure FetchEnv where
  first : FetchTry
  refreshOk : Bool
  second : FetchTry
deriving DecidableEq

/-- Instrumented result of one synchronous fetch block: the hits contributed to the
evidence, how many token refreshes ran, how many fetch calls ran, and whether an error
escaped the fetcher boundary into the surrounding handler. -/
structure FetchTrace where
  hits : List SearchHit
  refreshes : Nat
  attempts : Nat
  threw : Bool
deriving DecidableEq

/-- One synchronous fetch block with retry on 401 (ask.ts lines 208 to 252 for Gmail,
267 to 302 for Calendar; the two blocks are structurally identical).  The first call is
attempted; a 401 classified error triggers one refresh and, when the refresh succeeds,
one retry; an error of the refresh, of the retried call, or a non 401 error of the
first call is rethrown and absorbed by the enclosing per-source catch, which logs and
contributes no hits.  No path lets an error escape, and no path refreshes twice. -/
def syncFetch (env : FetchEnv) : FetchTrace :=
  match env.first with
  | .ok hits => ⟨hits, 0, 1, false⟩
  | .err e =>
    if isUnauthorized e then
      if env.refreshOk then
        match env.second with
        | .ok hits => ⟨hits, 1, 2, false⟩
        | .err _ => ⟨[], 1, 2, false⟩
      else ⟨[], 1, 1, false⟩
    else ⟨[], 0, 1, false⟩

/-- The Gmail fetch block (ask.ts lines 208 to 252). -/
def gmailFetchBlock : FetchEnv → FetchTrace := syncFetch

/-- The Calendar fetch block (ask.ts lines 267 to 302). -/
def calendarFetchBlock : FetchEnv → FetchTrace := syncFetch

/-- The query analysis as consumed by ask.ts after feature flag filtering (the
classifier analyzeQuery and filterAnalysisByFlags are external; their combined output
is an oracle input).  An absent keyword list of the source is the empty list here. -/
structure QueryAnalysis where
  needsGmail : Bool
  needsCalendar : Bool
  needsLinkedIn : Bool
  needsWhatsApp : Bool
  linkedInKeywords : List String
  whatsAppKeywords : List String
deriving DecidableEq

/-- The feature flags of lib/feature-flags.ts as consumed by ask.ts; only
enableAsyncMode steers the modelled control flow. -/
structure FeatureFlags where
  enableAsyncMode : Bool
deriving DecidableEq

/-- Response bodies of POST /ask on the modelled paths. -/
inductive AskResponse where
  | badRequest (code : String)
  | pendingResp (request_id : String) (sources_needed : List String)
      (instructions : List DOMInstruction)
  | completeResp (request_id : String) (answer : Answer) (sources_searched : List String)
deriving DecidableEq

def AskResponse.isComplete : AskResponse → Bool
  | .completeResp _ _ _ => true
  | _ => false

def AskResponse.isPending : AskResponse → Bool
  | .pendingResp _ _ _ => true
  | _ => false

/-- The sources_needed list of a pending response, empty otherwise. -/
def AskResponse.pendingSources : AskResponse → List String
  | .pendingResp _ s _ => s
  | _ => []

/-- The instructions list of a pending response, empty otherwise. -/
def AskResponse.pendingInstructions : AskResponse → List DOMInstruction
  | .pendingResp _ _ i => i
  | _ => []

/-- The sources_searched list of a complete response, empty otherwise. -/
def AskResponse.sourcesSearched : AskResponse → List String
  | .completeResp _ _ s => s
  | _ => []

/-- The sourcesNeeded list built by POST /ask (ask.ts lines 201, 207, 257, 309 to 325):
gmail and calendar are pushed before their fetches; linkedin and whatsapp only when the
source is needed and its keyword list is nonempty. -/
def sourcesNeededOf (analysis : QueryAnalysis) : List String :=
  (if analysis.needsGmail then ["gmail"] else []) ++
  (if analysis.needsCalendar then ["calendar"] else []) ++
  (if analysis.needsLinkedIn && !analysis.linkedInKeywords.isEmpty
    then ["linkedin"] else []) ++
  (if analysis.needsWhatsApp && !analysis.whatsAppKeywords.isEmpty
    then ["whatsapp"] else [])

/-- The DOM instructions built by POST /ask (ask.ts lines 309 to 325): one per
out-of-band source that is needed and has a nonempty keyword list. -/
def domInstructionsOf (analysis : QueryAnalysis) (requestId : String) :
    List DOMInstruction :=
  (if analysis.needsLinkedIn && !analysis.linkedInKeywords.isEmpty then
    [{ request_id := requestId, source := "linkedin",
       keywords := analysis.linkedInKeywords }] else []) ++
  (if analysis.needsWhatsApp && !analysis.whatsAppKeywords.isEmpty then
    [{ request_id := requestId, source := "whatsapp",
       keywords := analysis.whatsAppKeywords }] else [])

/-- The synchronous evidence accumulated by POST /ask (ask.ts lines 200, 249, 299):
Gmail hits then Calendar hits, each only when the source is needed. -/
def syncResultsOf (analysis : QueryAnalysis) (gmailEnv calendarEnv : FetchEnv) :
    List SearchHit :=
  (if analysis.needsGmail then (gmailFetchBlock gmailEnv).hits else []) ++
  (if analysis.needsCalendar then (calendarFetchBlock calendarEnv).hits else [])

/-- The PendingSearch registered by POST /ask on the extension path (ask.ts lines 334
to 352): note that the results map is pre-seeded with the gmail and calendar keys
unconditionally. -/
def registeredEntry (analysis : QueryAnalysis) (gmailEnv calendarEnv : FetchEnv)
    (requestId userId query : String) (conversationId : Option String)
    (now : Nat) : PendingSearch :=
  { request_id := requestId
    user_id := userId
    query := query
    requires_extension := true
    sources_needed := sourcesNeededOf analysis
    instructions := domInstructionsOf analysis requestId
    results :=
      [("gmail",
        (syncResultsOf analysis gmailEnv calendarEnv).filter fun r =>
          decide (r.source = "gmail")),
       ("calendar",
        (syncResultsOf analysis gmailEnv calendarEnv).filter fun r =>
          decide (r.source = "calendar"))]
    status := .Pending
    created_at := now
    conversation_id := conversationId
    answer := none }

/-- POST /ask from the token expiry check onward (ask.ts lines 166 to 411).  Earlier
steps (body validation, conversation loading, connection lookup, decryption) touch only
external state and do not affect the claims; requestId is the generated uuid, and the
fetch oracles stand for the external Gmail and Calendar calls.  Control flow mirrors
the source: proactive refresh (166 to 182, returning 400 TOKEN_REFRESH_FAILED when the
needed refresh fails), the Gmail block (206 to 253), the Calendar block (256 to 303),
the extension decision and instruction creation (305 to 330), registration of a
PendingSearch plus the lazy sweep and the pending response (333 to 371) when
enableAsyncMode is on and an out-of-band source is flagged, else the synchronous
synthesis and complete response (373 to 411). -/
def askIntake (flags : FeatureFlags) (analysis : QueryAnalysis)
    (gmailEnv calendarEnv : FetchEnv) (tokenExpiresAt : Option Nat) (refreshOk : Bool)
    (requestId userId query : String) (conversationId : Option String)
    (now : Nat) (store : Store) : AskResponse × Store :=
  if shouldRefreshToken tokenExpiresAt now && !refreshOk then
    (.badRequest "TOKEN_REFRESH_FAILED", store)
  else
    if flags.enableAsyncMode && (analysis.needsLinkedIn || analysis.needsWhatsApp) then
      (.pendingResp requestId
        ((sourcesNeededOf analysis).filter fun s =>
          decide (s = "linkedin") || decide (s = "whatsapp"))
        (domInstructionsOf analysis requestId),
       sweepStore
        (ainsert store requestId
          (registeredEntry analysis gmailEnv calendarEnv requestId userId query
            conversationId now))
        now)
    else
      (.completeResp requestId
        (synthesizeAnswer query (mergeResults [syncResultsOf analysis gmailEnv calendarEnv]))
        ((sourcesNeededOf analysis).filter fun s =>
          decide (s = "gmail") || decide (s = "calendar")),
       store)

/-- One externally triggered operation on the pending store.  intake is a POST /ask,
submit a POST dom-results, poll a GET, background the detached synthesis task of an
earlier completing submission, timerFire the 30 second setTimeout deletion. -/
inductive Op where
  | intake (flags : FeatureFlags) (analysis : QueryAnalysis)
      (gmailEnv calendarEnv : FetchEnv) (tokenExpiresAt : Option Nat) (refreshOk : Bool)
      (requestId userId query : String) (conversationId : Option String) (now : Nat)
  | submit (callerId requestId source : String) (snippets : List String)
  | poll (callerId requestId : String)
  | background (requestId : String) (synthOk : Bool) (now : Nat)
  | timerFire (requestId : String)

/-- The effect of one operation on the pending store. -/
def applyOp (store : Store) : Op → Store
  | .intake fl an ge ce te ro rid uid q cid now =>
      (askIntake fl an ge ce te ro rid uid q cid now store).2
  | .submit c rid s sn => (submitDomResults store c rid s sn).store
  | .poll c rid => (getAsk store c rid).2
  | .background rid ok now => (backgroundSynthesis store rid ok now).1
  | .timerFire rid => store.filter fun e => !(decide (e.1 = rid))

/-- The store reached from the empty initial store by a sequence of operations. -/
def runOps (ops : List Op) : Store := ops.foldl applyOp []

/-- The per-entry part of the status invariant that actually holds in the source:
the stored status is never processing, and a complete entry always carries an
answer. -/
def statusInv (p : PendingSearch) : Prop :=
  p.status ≠ Status.Processing ∧ (p.status = Status.Complete → p.answer.isSome = true)

/-- statusInv for every entry of a store. -/
def storeInv (store : Store) : Prop := ∀ e ∈ store, statusInv e.2

/-- Example feature flags with async mode enabled. -/
def exFlags : FeatureFlags := ⟨true⟩

/-- Example classifier output: only LinkedIn is needed, with one keyword. -/
def exAnalysisLi : QueryAnalysis :=
  { needsGmail := false, needsCalendar := false, needsLinkedIn := true,
    needsWhatsApp := false, linkedInKeywords := ["alice"], whatsAppKeywords := [] }

/-- Example fetch oracle (not consulted on the example paths). -/
def exEnv : FetchEnv := ⟨.ok [], true, .ok []⟩

/-- Example intake operation at time 3, with a stored token valid until 10. -/
def exIntakeOp : Op :=
  .intake exFlags exAnalysisLi exEnv exEnv (some 10) true "r1" "u1" "q1" none 3

/-- The store right after the example registration. -/
def exStore1 : Store := applyOp [] exIntakeOp

/-- The entry registered by exIntakeOp: sources_needed is only linkedin, yet the
results map is pre-seeded with the gmail and calendar keys. -/
def exPending1 : PendingSearch :=
  { request_id := "r1", user_id := "u1", query := "q1", requires_extension := true,
    sources_needed := ["linkedin"],
    instructions := [{ request_id := "r1", source := "linkedin", keywords := ["alice"] }],
    results := [("gmail", []), ("calendar", [])],
    status := .Pending, created_at := 3, conversation_id := none, answer := none }

/-- The example completing submission: one linkedin snippet by the owner. -/
def exSubmit : DomOutcome := submitDomResults exStore1 "u1" "r1" "linkedin" ["hello"]

/-- The store as the completing submission returns it. -/
def exStore2 : Store := exSubmit.store

/-- The store after the spawned background synthesis task fails. -/
def exStore3 : Store := (backgroundSynthesis exStore2 "r1" false 4).1

/-- An example store holding a never-completed entry created at time 0. -/
def exOldPending : PendingSearch :=
  { request_id := "rOld", user_id := "u1", query := "q", requires_extension := true,
    sources_needed := ["linkedin"],
    instructions := [{ request_id := "rOld", source := "linkedin", keywords := ["k"] }],
    results := [("gmail", []), ("calendar", [])],
    status := .Pending, created_at := 0, conversation_id := none, answer := none }

def exOldStore : Store := [("rOld", exOldPending)]

/-- A 401 error in the first checked shape (error.code). -/
def exErr401 : ErrShape := ⟨some 401, none, none, none⟩

/-- One normalized Gmail hit. -/
def exGmailHit : SearchHit :=
  { id := "g1", source := "gmail", content := "mail", relevance := (9 : Rat) / 10 }

/-- Classifier output needing Gmail and Calendar only (fully synchronous path). -/
def exAnalysisGC : QueryAnalysis :=
  { needsGmail := true, needsCalendar := true, needsLinkedIn := false,
    needsWhatsApp := false, linkedInKeywords := [], whatsAppKeywords := [] }

/-- Gmail fetch oracle that succeeds on the first call. -/
def exEnvGmailOk : FetchEnv := ⟨.ok [exGmailHit], true, .ok []⟩

/-- Calendar fetch oracle: first call 401, refresh succeeds, retried call 401 again. -/
def exEnvCalFail : FetchEnv := ⟨.err exErr401, true, .err exErr401⟩

/-- Classifier output flagging LinkedIn but with an empty extracted keyword list. -/
def exAnalysisLiNoKw : QueryAnalysis :=
  { needsGmail := false, needsCalendar := false, needsLinkedIn := true,
    needsWhatsApp := false, linkedInKeywords := [], whatsAppKeywords := [] }

section Lemmas

@[simp] theorem alookup_nil {α : Type} (k : String) :
    alookup ([] : List (String × α)) k = none := rfl

@[simp] theorem alookup_cons {α : Type} (k1 : String) (v1 : α)
    (rest : List (String × α)) (k : String) :
    alookup ((k1, v1) :: rest) k = if k1 = k then some v1 else alookup rest k := rfl

@[simp] theorem ainsert_nil {α : Type} (k : String) (v : α) :
    ainsert ([] : List (String × α)) k v = [(k, v)] := rfl

@[simp] theorem ainsert_cons {α : Type} (k1 : String) (v1 : α)
    (rest : List (String × α)) (k : String) (v : α) :
    ainsert ((k1, v1) :: rest) k v =
      if k1 = k then (k, v) :: rest else (k1, v1) :: ainsert rest k v := rfl

@[simp] theorem akeys_nil {α : Type} : akeys ([] : List (String × α)) = [] := rfl

@[simp] theorem akeys_cons {α : Type} (k1 : String) (v1 : α)
    (rest : List (String × α)) :
    akeys ((k1, v1) :: rest) = k1 :: akeys rest := rfl

theorem alookup_ainsert_self {α : Type} (m : List (String × α)) (k : String) (v : α) :
    alookup (ainsert m k v) k = some v := by
  induction m with
  | nil => simp
  | cons hd tl ih =>
    obtain ⟨k1, v1⟩ := hd
    by_cases h : k1 = k
    · simp [h]
    · simp [h, ih]

theorem mem_ainsert {α : Type} {m : List (String × α)} {k : String} {v : α}
    {e : String × α} (h : e ∈ ainsert m k v) : e = (k, v) ∨ e ∈ m := by
  induction m with
  | nil => simpa using h
  | cons hd tl ih =>
    obtain ⟨k1, v1⟩ := hd
    by_cases hk : k1 = k
    · rw [ainsert_cons, if_pos hk] at h
      rcases List.mem_cons.mp h with h1 | h1
      · exact Or.inl h1
      · exact Or.inr (List.mem_cons_of_mem _ h1)
    · rw [ainsert_cons, if_neg hk] at h
      rcases List.mem_cons.mp h with h1 | h1
      · exact Or.inr (h1 ▸ List.mem_cons_self _ _)
      · rcases ih h1 with h2 | h2
        · exact Or.inl h2
        · exact Or.inr (List.mem_cons_of_mem _ h2)

theorem mem_of_alookup_eq_some {α : Type} {m : List (String × α)} {k : String} {v : α}
    (h : alookup m k = some v) : (k, v) ∈ m := by
  induction m with
  | nil => simp at h
  | cons hd tl ih =>
    obtain ⟨k1, v1⟩ := hd
    by_cases hk : k1 = k
    · rw [alookup_cons, if_pos hk] at h
      obtain rfl : v1 = v := Option.some.inj h
      exact hk ▸ List.mem_cons_self _ _
    · rw [alookup_cons, if_neg hk] at h
      exact List.mem_cons_of_mem _ (ih h)

theorem alookup_eq_none_of_not_mem_akeys {α : Type} {m : List (String × α)} {k : String}
    (h : k ∉ akeys m) : alookup m k = none := by
  induction m with
  | nil => simp
  | cons hd tl ih =>
    obtain ⟨k1, v1⟩ := hd
    rw [akeys_cons, List.mem_cons] at h
    push_neg at h
    rw [alookup_cons, if_neg fun hk => h.1 hk.symm]
    exact ih h.2

theorem mem_akeys_of_alookup_isSome {α : Type} {m : List (String × α)} {k : String}
    (h : (alookup m k).isSome = true) : k ∈ akeys m := by
  by_contra hk
  rw [alookup_eq_none_of_not_mem_akeys hk] at h
  simp at h

theorem alookup_isSome_of_mem_akeys {α : Type} {m : List (String × α)} {k : String}
    (h : k ∈ akeys m) : (alookup m k).isSome = true := by
  induction m with
  | nil => simp at h
  | cons hd tl ih =>
    obtain ⟨k1, v1⟩ := hd
    by_cases hk : k1 = k
    · simp [hk]
    · rw [akeys_cons, List.mem_cons] at h
      rcases h with h | h
      · exact absurd h.symm hk
      · simpa [hk] using ih h

theorem akeys_ainsert {α : Type} (m : List (String × α)) (k : String) (v : α) :
    akeys (ainsert m k v) = if k ∈ akeys m then akeys m else akeys m ++ [k] := by
  induction m with
  | nil => simp
  | cons hd tl ih =>
    obtain ⟨k1, v1⟩ := hd
    by_cases hk : k1 = k
    · subst hk
      simp
    · rw [ainsert_cons, if_neg hk, akeys_cons, akeys_cons, ih]
      have hne : ¬(k = k1) := fun h => hk h.symm
      by_cases hm : k ∈ akeys tl
      · rw [if_pos hm, if_pos (by simp [List.mem_cons, hm])]
      · rw [if_neg hm, if_neg (by simp [List.mem_cons, hne, hm]), List.cons_append]

theorem alookup_filter_keep {α : Type} {m : List (String × α)} {k : String} {v : α}
    (f : String × α → Bool) (h : alookup m k = some v) (hf : f (k, v) = true) :
    alookup (m.filter f) k = some v := by
  induction m with
  | nil => simp at h
  | cons hd tl ih =>
    obtain ⟨k1, v1⟩ := hd
    by_cases hk : k1 = k
    · subst hk
      rw [alookup_cons, if_pos rfl] at h
      obtain rfl : v1 = v := Option.some.inj h
      rw [List.filter_cons, if_pos hf, alookup_cons, if_pos rfl]
    · rw [alookup_cons, if_neg hk] at h
      rw [List.filter_cons]
      by_cases hf1 : f (k1, v1) = true
      · rw [if_pos hf1, alookup_cons, if_neg hk]
        exact ih h
      · rw [if_neg hf1]
        exact ih h

theorem akeys_filter_sub {α : Type} {m : List (String × α)} {k : String}
    (f : String × α → Bool) (h : k ∈ akeys (m.filter f)) : k ∈ akeys m := by
  simp only [akeys, List.mem_map] at h ⊢
  obtain ⟨e, he, hk⟩ := h
  exact ⟨e, List.mem_of_mem_filter he, hk⟩

theorem alookup_filter_drop {α : Type} {m : List (String × α)} {k : String} {v : α}
    (f : String × α → Bool) (hnd : (akeys m).Nodup) (h : alookup m k = some v)
    (hf : f (k, v) = false) : alookup (m.filter f) k = none := by
  induction m with
  | nil => simp at h
  | cons hd tl ih =>
    obtain ⟨k1, v1⟩ := hd
    rw [akeys_cons, List.nodup_cons] at hnd
    by_cases hk : k1 = k
    · subst hk
      rw [alookup_cons, if_pos rfl] at h
      obtain rfl : v1 = v := Option.some.inj h
      rw [List.filter_cons, if_neg (by simp [hf])]
      exact alookup_eq_none_of_not_mem_akeys fun hm => hnd.1 (akeys_filter_sub f hm)
    · rw [alookup_cons, if_neg hk] at h
      rw [List.filter_cons]
      by_cases hf1 : f (k1, v1) = true
      · rw [if_pos hf1, alookup_cons, if_neg hk]
        exact ih hnd.2 h
      · rw [if_neg hf1]
        exact ih hnd.2 h

theorem akeys_nodup_ainsert {α : Type} {m : List (String × α)} (k : String) (v : α)
    (h : (akeys m).Nodup) : (akeys (ainsert m k v)).Nodup := by
  rw [akeys_ainsert]
  by_cases hm : k ∈ akeys m
  · simpa [hm] using h
  · rw [if_neg hm, List.nodup_append]
    refine ⟨h, List.nodup_singleton _, ?_⟩
    intro a ha hb
    rw [List.mem_singleton] at hb
    subst hb
    exact hm ha

theorem akeys_nodup_filter {α : Type} {m : List (String × α)}
    (f : String × α → Bool) (h : (akeys m).Nodup) : (akeys (m.filter f)).Nodup := by
  have hsub : (m.filter f).Sublist m := List.filter_sublist m
  exact (hsub.map Prod.fst).nodup h

theorem normalizeSnippets_length (source : String) (snippets : List String) :
    (normalizeSnippets source snippets).length = snippets.length := by
  unfold normalizeSnippets
  generalize 0 = i
  induction snippets generalizing i with
  | nil => simp [buildHits]
  | cons hd tl ih => simp [buildHits, ih]

theorem allSourcesComplete_iff (p : PendingSearch) :
    allSourcesComplete p = true ↔ ∀ s ∈ p.sources_needed, s ∈ akeys p.results := by
  unfold allSourcesComplete
  rw [List.all_eq_true]
  constructor
  · intro h s hs
    have := h s hs
    apply mem_akeys_of_alookup_isSome
    rcases hl : alookup p.results s with _ | hits
    · rw [hl] at this; simp at this
    · simp [hl]
  · intro h s hs
    have := alookup_isSome_of_mem_akeys (h s hs)
    rcases hl : alookup p.results s with _ | hits
    · rw [hl] at this; simp at this
    · simp [hl]

theorem getAsk_snd (store : Store) (callerId requestId : String) :
    (getAsk store callerId requestId).2 = store := by
  unfold getAsk
  rcases alookup store requestId with _ | p
  · rfl
  · by_cases h : p.user_id ≠ callerId <;> simp [h]

/-- Full characterization of a dom-results call on a present entry owned by the
caller. -/
theorem submitDomResults_spec (store : Store) (callerId requestId source : String)
    (snippets : List String) (p : PendingSearch)
    (hp : alookup store requestId = some p) (hu : p.user_id = callerId) :
    submitDomResults store callerId requestId source snippets =
      (if allSourcesComplete (submittedEntry p source snippets) then
        ⟨.ok .Processing requestId,
          ainsert store requestId (submittedEntry p source snippets), true⟩
       else
        ⟨.ok .Partial requestId,
          ainsert store requestId
            { submittedEntry p source snippets with status := .Partial }, false⟩) := by
  unfold submitDomResults submittedEntry
  rw [hp]
  simp [hu]

/-- Shape of the store returned by askIntake: unchanged, or the sweep of the store
with the registered pending entry inserted. -/
theorem askIntake_snd (fl : FeatureFlags) (an : QueryAnalysis) (ge ce : FetchEnv)
    (te : Option Nat) (ro : Bool) (rid uid q : String) (cid : Option String)
    (now : Nat) (store : Store) :
    (askIntake fl an ge ce te ro rid uid q cid now store).2 = store ∨
    (askIntake fl an ge ce te ro rid uid q cid now store).2 =
      sweepStore (ainsert store rid (registeredEntry an ge ce rid uid q cid now)) now := by
  unfold askIntake
  by_cases h1 : (shouldRefreshToken te now && !ro) = true
  · rw [if_pos h1]
    exact Or.inl rfl
  · rw [if_neg h1]
    by_cases h2 : (fl.enableAsyncMode && (an.needsLinkedIn || an.needsWhatsApp)) = true
    · rw [if_pos h2]
      exact Or.inr rfl
    · rw [if_neg h2]
      exact Or.inl rfl

/-- Shape of the store returned by submitDomResults: unchanged, or the entry under the
request id replaced by the submitted entry, possibly with status partial. -/
theorem submitDomResults_snd (store : Store) (c rid s : String) (sn : List String) :
    (submitDomResults store c rid s sn).store = store ∨
    ∃ p : PendingSearch, alookup store rid = some p ∧
      ((submitDomResults store c rid s sn).store =
        ainsert store rid (submittedEntry p s sn) ∨
       (submitDomResults store c rid s sn).store =
        ainsert store rid { submittedEntry p s sn with status := .Partial }) := by
  unfold submitDomResults
  split
  · exact Or.inl rfl
  · next p heq =>
    split
    · exact Or.inl rfl
    · split
      · exact Or.inr ⟨p, heq, Or.inl rfl⟩
      · exact Or.inr ⟨p, heq, Or.inr rfl⟩

/-- Shape of the store returned by backgroundSynthesis: unchanged, or the entry
replaced by a complete entry with an answer, or by a failed entry. -/
theorem backgroundSynthesis_fst (store : Store) (rid : String) (ok : Bool) (now : Nat) :
    (backgroundSynthesis store rid ok now).1 = store ∨
    ∃ p q : PendingSearch, alookup store rid = some p ∧
      ((q.status = Status.Complete ∧ q.answer.isSome = true) ∨
        (q.status = Status.Failed ∧ q.answer = p.answer)) ∧
      (backgroundSynthesis store rid ok now).1 = ainsert store rid q := by
  unfold backgroundSynthesis
  split
  · exact Or.inl rfl
  · next p heq =>
    split
    · exact Or.inr ⟨p,
        { p with
            answer := some (synthesizeAnswer p.query (mergeResults (p.results.map Prod.snd)))
            status := .Complete },
        heq, Or.inl ⟨rfl, rfl⟩, rfl⟩
    · exact Or.inr ⟨p, { p with status := .Failed }, heq, Or.inr ⟨rfl, rfl⟩, rfl⟩

/-- Every single operation preserves the store invariant. -/
theorem storeInv_applyOp {store : Store} (op : Op) (h : storeInv store) :
    storeInv (applyOp store op) := by
  cases op with
  | intake fl an ge ce te ro rid uid q cid now =>
    simp only [applyOp]
    rcases askIntake_snd fl an ge ce te ro rid uid q cid now store with heq | heq
    · rw [heq]; exact h
    · rw [heq]
      intro e he
      unfold sweepStore at he
      have he2 := List.mem_of_mem_filter he
      rcases mem_ainsert he2 with rfl | hmem
      · exact ⟨fun hc => Status.noConfusion hc, fun hc => Status.noConfusion hc⟩
      · exact h e hmem
  | submit c rid s sn =>
    simp only [applyOp]
    rcases submitDomResults_snd store c rid s sn with heq | ⟨p, hp, heq | heq⟩
    · rw [heq]; exact h
    · rw [heq]
      intro e he
      rcases mem_ainsert he with rfl | hmem
      · exact h (rid, p) (mem_of_alookup_eq_some hp)
      · exact h e hmem
    · rw [heq]
      intro e he
      rcases mem_ainsert he with rfl | hmem
      · exact ⟨fun hc => Status.noConfusion hc, fun hc => Status.noConfusion hc⟩
      · exact h e hmem
  | poll c rid =>
    simp only [applyOp, getAsk_snd]
    exact h
  | background rid ok now =>
    simp only [applyOp]
    rcases backgroundSynthesis_fst store rid ok now with heq | ⟨p, q, hp, hq, heq⟩
    · rw [heq]; exact h
    · rw [heq]
      intro e he
      rcases mem_ainsert he with rfl | hmem
      · rcases hq with ⟨h1, h2⟩ | ⟨h1, _⟩
        · exact ⟨fun hc => by rw [h1] at hc; exact Status.noConfusion hc, fun _ => h2⟩
        · exact ⟨fun hc => by rw [h1] at hc; exact Status.noConfusion hc,
            fun hc => by rw [h1] at hc; exact Status.noConfusion hc⟩
      · exact h e hmem
  | timerFire rid =>
    simp only [applyOp]
    intro e he
    exact h e (List.mem_of_mem_filter he)

/-- A dom-results call on a present entry owned by the caller stores an entry whose
results carry the freshly normalized snippets under the submitted source key. -/
theorem submitDomResults_store_lookup (store : Store)
    (callerId requestId source : String) (snippets : List String) (p : PendingSearch)
    (hp : alookup store requestId = some p) (hu : p.user_id = callerId) :
    ∃ q : PendingSearch,
      alookup (submitDomResults store callerId requestId source snippets).store
        requestId = some q ∧
      q.results = ainsert p.results source (normalizeSnippets source snippets) ∧
      q.user_id = p.user_id := by
  rw [submitDomResults_spec store callerId requestId source snippets p hp hu]
  by_cases hc : allSourcesComplete (submittedEntry p source snippets) = true
  · rw [if_pos hc]
    exact ⟨_, alookup_ainsert_self _ _ _, rfl, rfl⟩
  · rw [if_neg hc]
    exact ⟨_, alookup_ainsert_self _ _ _, rfl, rfl⟩

/-- With an empty LinkedIn keyword list, linkedin is never pushed to sourcesNeeded. -/
theorem linkedin_not_in_sourcesNeeded (analysis : QueryAnalysis)
    (hkw : analysis.linkedInKeywords = []) : "linkedin" ∉ sourcesNeededOf analysis := by
  intro h
  unfold sourcesNeededOf at h
  rw [hkw] at h
  simp only [List.isEmpty_nil, Bool.not_true, Bool.and_false, Bool.false_eq_true,
    if_false, List.append_nil] at h
  rcases List.mem_append.mp h with h1 | h1
  · rcases List.mem_append.mp h1 with h2 | h2
    · split at h2 <;> simp at h2
    · split at h2 <;> simp at h2
  · split at h1 <;> simp at h1

/-- With an empty LinkedIn keyword list, no linkedin instruction is created. -/
theorem linkedin_not_in_instructions (analysis : QueryAnalysis) (rid : String)
    (hkw : analysis.linkedInKeywords = []) :
    ∀ ins ∈ domInstructionsOf analysis rid, ins.source ≠ "linkedin" := by
  intro ins hins
  unfold domInstructionsOf at hins
  rw [hkw] at hins
  simp only [List.isEmpty_nil, Bool.not_true, Bool.and_false, Bool.false_eq_true,
    if_false, List.nil_append] at hins
  split at hins
  · rw [List.mem_singleton] at hins
    subst hins
    simp
  · simp at hins

/-- The store invariant holds after any operation sequence from the empty store. -/
theorem storeInv_runOps (ops : List Op) : storeInv (runOps ops) := by
  unfold runOps
  have aux : ∀ (l : List Op) (s : Store), storeInv s → storeInv (l.foldl applyOp s) := by
    intro l
    induction l with
    | nil => intro s hs; exact hs
    | cons hd tl ih =>
      intro s hs
      exact ih (applyOp s hd) (storeInv_applyOp hd hs)
  exact aux ops [] (fun e he => absurd he (List.not_mem_nil e))

end Lemmas

/-- Claim C1, counterexample.  With sources_needed equal to the single source linkedin,
the completing submission is accepted (response processing, background task spawned)
even though the key set of results is gmail, calendar, linkedin, a strict superset of
sources_needed; moreover the stored status stays pending, it does not become
processing.  This refutes both the set equality reading of the completion invariant and
the claim that the stored status becomes PROCESSING. -/
theorem C1_counterexample :
    exSubmit.spawned = true ∧
    exSubmit.response = DomResponse.ok Status.Processing "r1" ∧
    (alookup exStore2 "r1").map PendingSearch.status = some Status.Pending ∧
    ((alookup exStore2 "r1").map fun p => akeys p.results) =
      some ["gmail", "calendar", "linkedin"] ∧
    (alookup exStore2 "r1").map PendingSearch.sources_needed = some ["linkedin"] := by
  decide

/-- Claim C1, amended: a dom-results submission on a present, owned entry spawns the
detached background synthesis task and answers with status processing exactly when
every source in sources_needed has a key in the updated results map (sources_needed
contained in the key set, not set equality; the pre-seeded gmail and calendar keys are
always present).  On the completing branch the handler returns at once with the stored
entry unchanged except for its results; in particular the stored status keeps its old
value and is never set to processing.  On the non-completing branch the response and
the stored status are partial. -/
theorem C1_amended (store : Store) (callerId requestId source : String)
    (snippets : List String) (p : PendingSearch)
    (hp : alookup store requestId = some p) (hu : p.user_id = callerId) :
    ((submitDomResults store callerId requestId source snippets).spawned = true ↔
      allSourcesComplete (submittedEntry p source snippets) = true) ∧
    (allSourcesComplete (submittedEntry p source snippets) = true ↔
      ∀ s ∈ p.sources_needed, s ∈ akeys (submittedEntry p source snippets).results) ∧
    ((submitDomResults store callerId requestId source snippets).spawned = true →
      (submitDomResults store callerId requestId source snippets).response =
        DomResponse.ok Status.Processing requestId ∧
      alookup (submitDomResults store callerId requestId source snippets).store
        requestId = some (submittedEntry p source snippets) ∧
      (submittedEntry p source snippets).status = p.status) ∧
    ((submitDomResults store callerId requestId source snippets).spawned = false →
      (submitDomResults store callerId requestId source snippets).response =
        DomResponse.ok Status.Partial requestId ∧
      alookup (submitDomResults store callerId requestId source snippets).store
        requestId =
        some { submittedEntry p source snippets with status := Status.Partial }) := by
  rw [submitDomResults_spec store callerId requestId source snippets p hp hu]
  refine ⟨?_, allSourcesComplete_iff _, ?_, ?_⟩
  · by_cases hc : allSourcesComplete (submittedEntry p source snippets) = true
    · rw [if_pos hc]
      simpa using hc
    · rw [if_neg hc]
      simpa using hc
  · by_cases hc : allSourcesComplete (submittedEntry p source snippets) = true
    · rw [if_pos hc]
      intro _
      exact ⟨rfl, alookup_ainsert_self _ _ _, rfl⟩
    · rw [if_neg hc]
      intro h
      simp at h
  · by_cases hc : allSourcesComplete (submittedEntry p source snippets) = true
    · rw [if_pos hc]
      intro h
      simp at h
    · rw [if_neg hc]
      intro _
      exact ⟨rfl, alookup_ainsert_self _ _ _⟩

/-- Claim C1, witness instance of the amended theorem at the example registration. -/
theorem C1_witness :
    (submitDomResults exStore1 "u1" "r1" "linkedin" ["hello"]).spawned = true ↔
      allSourcesComplete (submittedEntry exPending1 "linkedin" ["hello"]) = true :=
  (C1_amended exStore1 "u1" "r1" "linkedin" ["hello"] exPending1 (by decide)
    (by decide)).1

/-- Claim C2, counterexample.  The entry registered for a query that needs only
linkedin carries the pre-seeded keys gmail and calendar in its results map, both
outside its sources_needed. -/
theorem C2_counterexample :
    alookup exStore1 "r1" = some exPending1 ∧
    "gmail" ∈ akeys exPending1.results ∧
    "gmail" ∉ exPending1.sources_needed := by
  decide

/-- Claim C2, amended: registration always pre-seeds the results map with exactly the
keys gmail and calendar, whatever sources_needed is, and a dom-results submission for
an arbitrary source string adds that key unconditionally (no membership check against
sources_needed); the key set of results is therefore not bounded by sources_needed. -/
theorem C2_amended (flags : FeatureFlags) (analysis : QueryAnalysis)
    (gmailEnv calendarEnv : FetchEnv) (te : Option Nat) (ro : Bool)
    (requestId userId query : String) (cid : Option String) (now : Nat)
    (store : Store) (callerId rid source : String) (snippets : List String)
    (p : PendingSearch)
    (hgate : (shouldRefreshToken te now && !ro) = false)
    (hext : (flags.enableAsyncMode &&
      (analysis.needsLinkedIn || analysis.needsWhatsApp)) = true)
    (hp : alookup store rid = some p) (hu : p.user_id = callerId) :
    ((alookup
        (askIntake flags analysis gmailEnv calendarEnv te ro requestId userId query
          cid now store).2 requestId).map fun q => akeys q.results) =
      some ["gmail", "calendar"] ∧
    ((alookup (submitDomResults store callerId rid source snippets).store rid).map
        fun q => akeys q.results) =
      some (if source ∈ akeys p.results then akeys p.results
            else akeys p.results ++ [source]) := by
  constructor
  · have h1 : ¬ ((shouldRefreshToken te now && !ro) = true) := by
      rw [hgate]
      simp
    unfold askIntake
    rw [if_neg h1, if_pos hext]
    unfold sweepStore
    rw [alookup_filter_keep _ (alookup_ainsert_self store requestId _)
      (by simp [registeredEntry, Nat.not_lt.mpr (Nat.sub_le now (5 * 60 * 1000))])]
    rfl
  · obtain ⟨q, hq, hr, _⟩ :=
      submitDomResults_store_lookup store callerId rid source snippets p hp hu
    rw [hq]
    simp only [Option.map_some']
    rw [hr, akeys_ainsert]

/-- Claim C2, witness instance of the amended theorem. -/
theorem C2_witness :
    ((alookup
        (askIntake exFlags exAnalysisLi exEnv exEnv (some 10) true "r2" "u2" "q2"
          none 3 exStore1).2 "r2").map fun q => akeys q.results) =
      some ["gmail", "calendar"] :=
  (C2_amended exFlags exAnalysisLi exEnv exEnv (some 10) true "r2" "u2" "q2" none 3
    exStore1 "u1" "r1" "linkedin" ["hello"] exPending1 (by decide) (by decide)
    (by decide) (by decide)).1

/-- Claim C3, counterexample.  A concrete trace: after registration the stored status
is pending; the completing dom-results submission leaves the stored status pending
(never processing, which is only a response value); the failing background synthesis
then moves it straight from pending to failed.  This refutes the claim that FAILED is
reachable only from PROCESSING. -/
theorem C3_counterexample :
    (alookup exStore1 "r1").map PendingSearch.status = some Status.Pending ∧
    exSubmit.spawned = true ∧
    (alookup exStore2 "r1").map PendingSearch.status = some Status.Pending ∧
    (alookup exStore3 "r1").map PendingSearch.status = some Status.Failed := by
  decide

/-- Claim C3, amended: over every operation sequence on the pending store, every
reachable entry has a stored status other than processing (processing appears only in
responses), and whenever the stored status is complete the answer field is set.  The
direction of status changes (pending, partial to complete or failed) is as the source
implements it: failed is entered from pending or partial when the background synthesis
fails, and neither complete nor failed is absorbing, since a later submission may
re-run synthesis and overwrite answer and status. -/
theorem C3_amended (ops : List Op) (id : String) (p : PendingSearch)
    (h : alookup (runOps ops) id = some p) :
    p.status ≠ Status.Processing ∧
      (p.status = Status.Complete → p.answer.isSome = true) :=
  storeInv_runOps ops (id, p) (mem_of_alookup_eq_some h)

/-- Claim C3, witness instance of the amended theorem on a one-step trace. -/
theorem C3_witness : exPending1.status ≠ Status.Processing :=
  (C3_amended [exIntakeOp] "r1" exPending1 (by decide)).1

/-- Claim C4, confirmed: for each synchronous fetch block (the Gmail and Calendar
blocks are the same policy), an error of the first call classified as unauthorized
(a 401 in any checked shape) triggers exactly one token refresh and, when the refresh
succeeds, exactly one retry with the new token; an error of the retried call or of the
refresh, and any non 401 error, is absorbed at the fetcher boundary: the source
contributes no hits, no second refresh happens (refreshes never exceed 1), and no path
lets an error escape to fail the whole /ask call. -/
theorem C4_retry_once (env : FetchEnv) (e e2 : ErrShape) (hits : List SearchHit) :
    ((syncFetch env).threw = false ∧ (syncFetch env).refreshes ≤ 1) ∧
    (env.first = FetchTry.ok hits → syncFetch env = ⟨hits, 0, 1, false⟩) ∧
    (env.first = FetchTry.err e → isUnauthorized e = true →
      (syncFetch env).refreshes = 1 ∧
      (env.refreshOk = true → env.second = FetchTry.ok hits →
        syncFetch env = ⟨hits, 1, 2, false⟩) ∧
      (env.refreshOk = true → env.second = FetchTry.err e2 →
        syncFetch env = ⟨[], 1, 2, false⟩) ∧
      (env.refreshOk = false → syncFetch env = ⟨[], 1, 1, false⟩)) ∧
    (env.first = FetchTry.err e → isUnauthorized e = false →
      syncFetch env = ⟨[], 0, 1, false⟩) ∧
    gmailFetchBlock env = syncFetch env ∧ calendarFetchBlock env = syncFetch env := by
  obtain ⟨f, ro, sec⟩ := env
  cases f with
  | ok h0 =>
    refine ⟨⟨rfl, Nat.zero_le 1⟩, ?_, ?_, ?_, rfl, rfl⟩
    · intro h1
      injection h1 with hh
      subst hh
      rfl
    · intro h1 _
      exact absurd h1 (by simp)
    · intro h1 _
      exact absurd h1 (by simp)
  | err e0 =>
    by_cases hu : isUnauthorized e0 = true
    · by_cases hro : ro = true
      · subst hro
        cases sec with
        | ok h2 =>
          have hs : syncFetch ⟨FetchTry.err e0, true, FetchTry.ok h2⟩ =
              ⟨h2, 1, 2, false⟩ := by simp [syncFetch, hu]
          refine ⟨⟨by rw [hs], by rw [hs]⟩, ?_, ?_, ?_, rfl, rfl⟩
          · intro h1
            exact absurd h1 (by simp)
          · intro h1 h3
            injection h1 with he
            subst he
            refine ⟨by rw [hs], ?_, ?_, ?_⟩
            · intro _ h4
              injection h4 with hh
              subst hh
              exact hs
            · intro _ h4
              exact absurd h4 (by simp)
            · intro h4
              exact absurd h4 (by simp)
          · intro h1 h3
            injection h1 with he
            subst he
            exact absurd h3 (by simp [hu])
        | err e2c =>
          have hs : syncFetch ⟨FetchTry.err e0, true, FetchTry.err e2c⟩ =
              ⟨[], 1, 2, false⟩ := by simp [syncFetch, hu]
          refine ⟨⟨by rw [hs], by rw [hs]⟩, ?_, ?_, ?_, rfl, rfl⟩
          · intro h1
            exact absurd h1 (by simp)
          · intro h1 h3
            injection h1 with he
            subst he
            refine ⟨by rw [hs], ?_, ?_, ?_⟩
            · intro _ h4
              exact absurd h4 (by simp)
            · intro _ _
              exact hs
            · intro h4
              exact absurd h4 (by simp)
          · intro h1 h3
            injection h1 with he
            subst he
            exact absurd h3 (by simp [hu])
      · rw [Bool.not_eq_true] at hro
        subst hro
        have hs : syncFetch ⟨FetchTry.err e0, false, sec⟩ = ⟨[], 1, 1, false⟩ := by
          simp [syncFetch, hu]
        refine ⟨⟨by rw [hs], by rw [hs]⟩, ?_, ?_, ?_, rfl, rfl⟩
        · intro h1
          exact absurd h1 (by simp)
        · intro h1 h3
          injection h1 with he
          subst he
          refine ⟨by rw [hs], ?_, ?_, ?_⟩
          · intro h4 _
            exact absurd h4 (by simp)
          · intro h4 _
            exact absurd h4 (by simp)
          · intro _
            exact hs
        · intro h1 h3
          injection h1 with he
          subst he
          exact absurd h3 (by simp [hu])
    · rw [Bool.not_eq_true] at hu
      have hs : syncFetch ⟨FetchTry.err e0, ro, sec⟩ = ⟨[], 0, 1, false⟩ := by
        simp [syncFetch, hu]
      refine ⟨⟨by rw [hs], by rw [hs]; exact Nat.zero_le 1⟩, ?_, ?_, ?_, rfl, rfl⟩
      · intro h1
        exact absurd h1 (by simp)
      · intro h1 h3
        injection h1 with he
        subst he
        exact absurd h3 (by simp [hu])
      · intro _ _
        exact hs

/-- Claim C4, witness: the second unauthorized scenario (retry also fails with 401)
ends with one refresh, two fetch calls, no hits and no escaping error. -/
theorem C4_witness :
    syncFetch ⟨FetchTry.err exErr401, true, FetchTry.err exErr401⟩ =
      ⟨[], 1, 2, false⟩ :=
  ((C4_retry_once ⟨FetchTry.err exErr401, true, FetchTry.err exErr401⟩ exErr401
    exErr401 []).2.2.1 rfl (by decide)).2.2.1 rfl rfl

/-- Claim C5, confirmed: a dom-results submission overwrites the submitted source key:
after any submission of snippets for source S, results S holds exactly the hits
normalized from that submission, and after two successive submissions for the same
source under the same request the stored hits come from the second submission only,
with one hit per snippet of the last submission. -/
theorem C5_overwrite (store : Store) (callerId requestId source : String)
    (snips1 snips2 : List String) (p : PendingSearch)
    (hp : alookup store requestId = some p) (hu : p.user_id = callerId) :
    ((alookup (submitDomResults store callerId requestId source snips1).store
        requestId).bind fun q => alookup q.results source) =
      some (normalizeSnippets source snips1) ∧
    ((alookup
        (submitDomResults
          (submitDomResults store callerId requestId source snips1).store
          callerId requestId source snips2).store requestId).bind
        fun q => alookup q.results source) =
      some (normalizeSnippets source snips2) ∧
    (normalizeSnippets source snips2).length = snips2.length := by
  obtain ⟨q1, hq1, hr1, hu1⟩ :=
    submitDomResults_store_lookup store callerId requestId source snips1 p hp hu
  obtain ⟨q2, hq2, hr2, _⟩ :=
    submitDomResults_store_lookup _ callerId requestId source snips2 q1 hq1
      (hu1.trans hu)
  refine ⟨?_, ?_, normalizeSnippets_length source snips2⟩
  · rw [hq1]
    show alookup q1.results source = some (normalizeSnippets source snips1)
    rw [hr1]
    exact alookup_ainsert_self _ _ _
  · rw [hq2]
    show alookup q2.results source = some (normalizeSnippets source snips2)
    rw [hr2]
    exact alookup_ainsert_self _ _ _

/-- Claim C5, witness instance: the second of two submissions for linkedin wins. -/
theorem C5_witness :
    ((alookup
        (submitDomResults
          (submitDomResults exStore1 "u1" "r1" "linkedin" ["x"]).store
          "u1" "r1" "linkedin" ["a", "b"]).store "r1").bind
        fun q => alookup q.results "linkedin") =
      some (normalizeSnippets "linkedin" ["a", "b"]) :=
  (C5_overwrite exStore1 "u1" "r1" "linkedin" ["x"] ["a", "b"] exPending1 (by decide)
    (by decide)).2.1

/-- Claim C6, confirmed: on an entry owned by another user, each of GET /ask/:id, the
legacy GET /ask/:id/status, and POST /ask/:id/dom-results answers with the Forbidden
response (which carries none of the entry fields) and returns the store unchanged,
while an unknown request id yields the distinct NotFound response; Forbidden and
NotFound are different values in both response types. -/
theorem C6_ownership (store : Store) (caller requestId otherId source : String)
    (snippets : List String) (p : PendingSearch)
    (hp : alookup store requestId = some p) (hne : p.user_id ≠ caller)
    (hmiss : alookup store otherId = none) :
    getAsk store caller requestId = (GetResponse.forbidden, store) ∧
    getAskStatus store caller requestId = (GetResponse.forbidden, store) ∧
    submitDomResults store caller requestId source snippets =
      ⟨DomResponse.forbidden, store, false⟩ ∧
    getAsk store caller otherId = (GetResponse.notFound, store) ∧
    getAskStatus store caller otherId = (GetResponse.notFound, store) ∧
    submitDomResults store caller otherId source snippets =
      ⟨DomResponse.notFound, store, false⟩ ∧
    GetResponse.forbidden ≠ GetResponse.notFound ∧
    DomResponse.forbidden ≠ DomResponse.notFound := by
  refine ⟨?_, ?_, ?_, ?_, ?_, ?_, by decide, by decide⟩
  · simp [getAsk, hp, hne]
  · simp [getAskStatus, getAsk, hp, hne]
  · simp [submitDomResults, hp, hne]
  · simp [getAsk, hmiss]
  · simp [getAskStatus, getAsk, hmiss]
  · simp [submitDomResults, hmiss]

/-- Claim C6, witness instance: a foreign caller on the example entry is forbidden. -/
theorem C6_witness : getAsk exStore1 "eve" "r1" = (GetResponse.forbidden, exStore1) :=
  (C6_ownership exStore1 "eve" "r1" "nope" "linkedin" ["x"] exPending1 (by decide)
    (by decide) (by decide)).1

/-- Claim C7, counterexample.  The GET handler takes no clock input and never deletes:
on a store holding a never-completed entry created at time 0, the read succeeds and is
not NotFound, and the store is returned unchanged, even though at time 600000 (ten
minutes later) the entry is past the five minute bound, as the sweep predicate shows.
A read at or after creation plus five minutes therefore still observes the entry
unless some later registration has run the sweep. -/
theorem C7_counterexample :
    (getAsk exOldStore "u1" "rOld").1 =
      GetResponse.ok Status.Pending "rOld" ["linkedin"] none ∧
    (getAsk exOldStore "u1" "rOld").1 ≠ GetResponse.notFound ∧
    (getAsk exOldStore "u1" "rOld").2 = exOldStore ∧
    alookup (sweepStore exOldStore 600000) "rOld" = none := by
  decide

/-- Claim C7, amended: entries disappear only through the lazy sweep run during a
later registration, which removes exactly the entries (of any status) created more
than five minutes before that registration, or through the deletion that a successful
background synthesis schedules thirty seconds after completion; a failed synthesis
schedules no cleanup, and a plain read never modifies the store, so a never-completed
entry is still readable after its five minutes until some registration sweeps it. -/
theorem C7_amended (store : Store) (caller rid : String) (tnow : Nat)
    (p : PendingSearch) (hnd : (akeys store).Nodup)
    (hp : alookup store rid = some p) :
    (getAsk store caller rid).2 = store ∧
    (getAskStatus store caller rid).2 = store ∧
    (¬ p.created_at < tnow - 5 * 60 * 1000 →
      alookup (sweepStore store tnow) rid = some p) ∧
    (p.created_at < tnow - 5 * 60 * 1000 →
      alookup (sweepStore store tnow) rid = none) ∧
    (backgroundSynthesis store rid true tnow).2 = some (tnow + 30000) ∧
    (backgroundSynthesis store rid false tnow).2 = none := by
  refine ⟨getAsk_snd store caller rid, getAsk_snd store caller rid, ?_, ?_, ?_, ?_⟩
  · intro h
    exact alookup_filter_keep _ hp (by simp [h])
  · intro h
    exact alookup_filter_drop _ hnd hp (by simp [h])
  · simp [backgroundSynthesis, hp]
  · simp [backgroundSynthesis, hp]

/-- Claim C7, witness instance of the amended theorem: the old example entry is
removed by a sweep at time 600000. -/
theorem C7_witness : alookup (sweepStore exOldStore 600000) "rOld" = none :=
  (C7_amended exOldStore "u1" "rOld" 600000 exOldPending (by decide)
    (by decide)).2.2.2.1 (by decide)

/-- Claim C8, counterexample.  Gmail succeeds, calendar gets a 401, the refresh
succeeds and the retried call fails again: the complete response is synthesized from
the Gmail hits only, yet sources_searched is gmail, calendar; it does not exclude the
failed calendar source. -/
theorem C8_counterexample :
    (askIntake exFlags exAnalysisGC exEnvGmailOk exEnvCalFail (some 10) true "r2"
        "u1" "q2" none 3 []).1 =
      AskResponse.completeResp "r2"
        (synthesizeAnswer "q2" (mergeResults [[exGmailHit]])) ["gmail", "calendar"] ∧
    "calendar" ∈
      (askIntake exFlags exAnalysisGC exEnvGmailOk exEnvCalFail (some 10) true "r2"
        "u1" "q2" none 3 []).1.sourcesSearched := by
  have h : (askIntake exFlags exAnalysisGC exEnvGmailOk exEnvCalFail (some 10) true
      "r2" "u1" "q2" none 3 []).1 =
      AskResponse.completeResp "r2"
        (synthesizeAnswer "q2" (mergeResults [[exGmailHit]])) ["gmail", "calendar"] :=
    rfl
  refine ⟨h, ?_⟩
  rw [h]
  decide

/-- Claim C8, amended: on the fully synchronous path, when the calendar fetch fails
even after the one refresh and retry, the response is still complete and its answer is
synthesized from the Gmail hits alone, but sources_searched lists every needed
synchronous source, including the failed calendar. -/
theorem C8_amended (flags : FeatureFlags) (analysis : QueryAnalysis)
    (gmailEnv calendarEnv : FetchEnv) (te : Option Nat) (ro : Bool)
    (rid uid q : String) (cid : Option String) (now : Nat) (store : Store)
    (e e2 : ErrShape)
    (hgate : (shouldRefreshToken te now && !ro) = false)
    (hg : analysis.needsGmail = true) (hc : analysis.needsCalendar = true)
    (hl : analysis.needsLinkedIn = false) (hw : analysis.needsWhatsApp = false)
    (h1 : calendarEnv.first = FetchTry.err e) (h2 : isUnauthorized e = true)
    (h3 : calendarEnv.refreshOk = true) (h4 : calendarEnv.second = FetchTry.err e2) :
    askIntake flags analysis gmailEnv calendarEnv te ro rid uid q cid now store =
      (AskResponse.completeResp rid
        (synthesizeAnswer q (mergeResults [(gmailFetchBlock gmailEnv).hits]))
        ["gmail", "calendar"], store) := by
  have hcal : (calendarFetchBlock calendarEnv).hits = [] := by
    simp [calendarFetchBlock, syncFetch, h1, h2, h3, h4]
  have hsn : sourcesNeededOf analysis = ["gmail", "calendar"] := by
    unfold sourcesNeededOf
    rw [hg, hc, hl, hw]
    simp
  have hsync : syncResultsOf analysis gmailEnv calendarEnv =
      (gmailFetchBlock gmailEnv).hits := by
    unfold syncResultsOf
    rw [hg, hc, hcal]
    simp
  unfold askIntake
  rw [if_neg (by rw [hgate]; simp), if_neg (by rw [hl, hw]; simp), hsync, hsn]
  rfl

/-- Claim C8, witness instance of the amended theorem at the example oracles. -/
theorem C8_witness :
    askIntake exFlags exAnalysisGC exEnvGmailOk exEnvCalFail (some 10) true "r3"
        "u1" "q3" none 3 [] =
      (AskResponse.completeResp "r3"
        (synthesizeAnswer "q3" (mergeResults [(gmailFetchBlock exEnvGmailOk).hits]))
        ["gmail", "calendar"], []) :=
  C8_amended exFlags exAnalysisGC exEnvGmailOk exEnvCalFail (some 10) true "r3" "u1"
    "q3" none 3 [] exErr401 exErr401 (by decide) rfl rfl rfl rfl rfl (by decide)
    rfl rfl

/-- Claim C9, counterexample.  With the stored expiry exactly equal to the current
time, the source does not refresh (the check is a strict comparison,
tokenExpiry < new Date), although expiry at or before now holds; the claim that a
refresh happens when the expiry is less than or equal to now is therefore false at
this boundary input. -/
theorem C9_counterexample :
    shouldRefreshToken (some 1000) 1000 = false ∧ 1000 ≤ 1000 := by
  decide

/-- Claim C9, amended: the proactive refresh runs exactly when the stored expiry is
absent or strictly earlier than the current time; when it runs and fails, POST /ask
answers 400 TOKEN_REFRESH_FAILED with the store untouched and without consulting any
fetch oracle (the same response for arbitrary fetch oracles); when no refresh is
needed the outcome does not depend on the refresh result at all. -/
theorem C9_amended (te : Option Nat) (t now : Nat) (flags : FeatureFlags)
    (analysis : QueryAnalysis) (e1 e2 e3 e4 : FetchEnv) (rid uid q : String)
    (cid : Option String) (store : Store) :
    shouldRefreshToken none now = true ∧
    (shouldRefreshToken (some t) now = true ↔ t < now) ∧
    (shouldRefreshToken te now = true →
      askIntake flags analysis e1 e2 te false rid uid q cid now store =
        (AskResponse.badRequest "TOKEN_REFRESH_FAILED", store) ∧
      askIntake flags analysis e3 e4 te false rid uid q cid now store =
        (AskResponse.badRequest "TOKEN_REFRESH_FAILED", store)) ∧
    (shouldRefreshToken te now = false →
      askIntake flags analysis e1 e2 te false rid uid q cid now store =
        askIntake flags analysis e1 e2 te true rid uid q cid now store) := by
  refine ⟨rfl, by simp [shouldRefreshToken], ?_, ?_⟩
  · intro h
    constructor <;> simp [askIntake, h]
  · intro h
    simp [askIntake, h]

/-- Claim C9, witness instance: an absent expiry with a failing refresh yields the
400 TOKEN_REFRESH_FAILED response. -/
theorem C9_witness :
    askIntake exFlags exAnalysisLi exEnv exEnv none false "r4" "u1" "q4" none 3 [] =
      (AskResponse.badRequest "TOKEN_REFRESH_FAILED", []) :=
  ((C9_amended none 0 3 exFlags exAnalysisLi exEnv exEnv exEnv exEnv "r4" "u1" "q4"
    none []).2.2.1 rfl).1

/-- Claim C10, confirmed: with async mode enabled, LinkedIn flagged as needed but an
empty extracted keyword list, POST /ask still registers a PendingSearch (status
pending) and answers with a pending response, yet linkedin appears neither in the
sources_needed of the response nor of the stored entry, and no instruction for
linkedin is emitted, so the agent is never directed at that source; reads leave the
store unchanged and only the lazy sweep of a registration at least five minutes later
removes the entry. -/
theorem C10_empty_keywords (flags : FeatureFlags) (analysis : QueryAnalysis)
    (gmailEnv calendarEnv : FetchEnv) (te : Option Nat) (ro : Bool)
    (rid uid q : String) (cid : Option String) (now : Nat) (store : Store)
    (hgate : (shouldRefreshToken te now && !ro) = false)
    (hasync : flags.enableAsyncMode = true)
    (hli : analysis.needsLinkedIn = true)
    (hkw : analysis.linkedInKeywords = [])
    (hnd : (akeys store).Nodup) :
    (askIntake flags analysis gmailEnv calendarEnv te ro rid uid q cid now
        store).1.isPending = true ∧
    "linkedin" ∉ (askIntake flags analysis gmailEnv calendarEnv te ro rid uid q cid
        now store).1.pendingSources ∧
    (∀ ins ∈ (askIntake flags analysis gmailEnv calendarEnv te ro rid uid q cid now
        store).1.pendingInstructions, ins.source ≠ "linkedin") ∧
    alookup (askIntake flags analysis gmailEnv calendarEnv te ro rid uid q cid now
        store).2 rid =
      some (registeredEntry analysis gmailEnv calendarEnv rid uid q cid now) ∧
    (registeredEntry analysis gmailEnv calendarEnv rid uid q cid now).status =
      Status.Pending ∧
    "linkedin" ∉ (registeredEntry analysis gmailEnv calendarEnv rid uid q cid
        now).sources_needed ∧
    (∀ ins ∈ (registeredEntry analysis gmailEnv calendarEnv rid uid q cid
        now).instructions, ins.source ≠ "linkedin") ∧
    (∀ c r, (getAsk (askIntake flags analysis gmailEnv calendarEnv te ro rid uid q
        cid now store).2 c r).2 =
      (askIntake flags analysis gmailEnv calendarEnv te ro rid uid q cid now
        store).2) ∧
    (∀ tnow, now + 5 * 60 * 1000 < tnow →
      alookup (sweepStore (askIntake flags analysis gmailEnv calendarEnv te ro rid
        uid q cid now store).2 tnow) rid = none) := by
  have hext : (flags.enableAsyncMode &&
      (analysis.needsLinkedIn || analysis.needsWhatsApp)) = true := by
    rw [hasync, hli]
    rfl
  have hmain : askIntake flags analysis gmailEnv calendarEnv te ro rid uid q cid now
      store =
      (AskResponse.pendingResp rid
        ((sourcesNeededOf analysis).filter fun s =>
          decide (s = "linkedin") || decide (s = "whatsapp"))
        (domInstructionsOf analysis rid),
       sweepStore (ainsert store rid
         (registeredEntry analysis gmailEnv calendarEnv rid uid q cid now)) now) := by
    unfold askIntake
    rw [if_neg (by rw [hgate]; simp), if_pos hext]
  have hsn := linkedin_not_in_sourcesNeeded analysis hkw
  have hins := linkedin_not_in_instructions analysis rid hkw
  have hnl : ¬ now < now - 5 * 60 * 1000 := by omega
  have hlook : alookup (sweepStore (ainsert store rid
      (registeredEntry analysis gmailEnv calendarEnv rid uid q cid now)) now) rid =
      some (registeredEntry analysis gmailEnv calendarEnv rid uid q cid now) :=
    alookup_filter_keep _ (alookup_ainsert_self store rid _)
      (by simp [registeredEntry, hnl])
  rw [hmain]
  refine ⟨rfl, ?_, ?_, hlook, rfl, hsn, hins, ?_, ?_⟩
  · intro hmem
    exact hsn (List.mem_of_mem_filter hmem)
  · intro ins hm
    exact hins ins hm
  · intro c r
    exact getAsk_snd _ c r
  · intro tnow ht
    refine alookup_filter_drop _ ?_ hlook ?_
    · exact akeys_nodup_filter _ (akeys_nodup_ainsert rid _ hnd)
    · simp only [registeredEntry]
      simp
      omega

/-- Claim C10, witness instance of the theorem at a concrete empty-keyword analysis. -/
theorem C10_witness :
    (askIntake exFlags exAnalysisLiNoKw exEnv exEnv (some 10) true "r5" "u1" "q5"
        none 3 []).1.isPending = true :=
  (C10_empty_keywords exFlags exAnalysisLiNoKw exEnv exEnv (some 10) true "r5" "u1"
    "q5" none 3 [] (by decide) rfl rfl rfl (by decide)).1

end Anor
